import Mathlib

/-!
Shallow embedding of `pkg/networkservice/up/client.go` (chain elements
`upClient` and `wireguardPeerServer`) from the sdk-vpp repository.

External collaborators (`initFunc`, `next.Client(ctx).Request/Close`,
`next.Server(ctx).Request/Close`, `up`, `createPeer`, `delPeer`) are opaque
capabilities; we model one call of `Request`/`Close` against an oracle
environment that fixes their outcomes.  Every function additionally returns
an event trace recording, in execution order, which external operation was
invoked and with which context, connection and directionality argument, so
that temporal and rollback properties can be stated.
-/

namespace SdkVppUp

/-- Errors.  `tag n` is an opaque error; `wrapClose e c` models
`errors.Wrapf(e, "connection closed with error: %s", c.Error())`:
the original cause `e` is wrapped, with the close error `c`
recorded in the message. -/
inductive Err where
  | tag : Nat → Err
  | wrapClose : Err → Err → Err
deriving DecidableEq

/-- A connection (`*networkservice.Connection`) is opaque; a nil pointer is
`Option.none` at use sites. -/
abbrev Conn := Nat

/-- An execution context: an opaque value bag plus a cancellation flag. -/
structure Ctx where
  values : Nat
  cancelled : Bool
deriving DecidableEq

/-- The context produced by the resolver of `postpone.ContextWithValues ctx`:
same value bag as `ctx` at capture time, independent (not cancelled)
cancellation. -/
def postponedOf (c : Ctx) : Ctx := ⟨c.values, false⟩

/-- Trace events, in execution order, for one `Request`/`Close` call. -/
inductive Event where
  | initFuncRun : Ctx → Event
  | captureValues : Ctx → Event
  | nextRequest : Ctx → Event
  | upRun : Ctx → Bool → Event
  | createPeerRun : Ctx → Option Conn → Bool → Event
  | delPeerRun : Ctx → Option Conn → Bool → Event
  | selfClose : Ctx → Option Conn → Event
  | nextClose : Ctx → Option Conn → Event
  | cancelClose : Event
deriving DecidableEq

/-- Is this event the postponed-context capture? -/
def isCapture : Event → Bool
  | Event.captureValues _ => true
  | _ => false

/-- Is this event an operation of the Establish attempt that could fail
(the guarded initialization action, the continuation, or the element's
own setup action)? -/
def isFailableOp : Event → Bool
  | Event.initFuncRun _ => true
  | Event.nextRequest _ => true
  | Event.upRun _ _ => true
  | Event.createPeerRun _ _ _ => true
  | _ => false

/-- Is this event a run of the guarded initialization action? -/
def isInitFuncRun : Event → Bool
  | Event.initFuncRun _ => true
  | _ => false

/-- Is this event the element's own setup action or a (self or delegated)
Close, i.e. a side effect beyond guarded initialization? -/
def isOwnSetupOrClose : Event → Bool
  | Event.upRun _ _ => true
  | Event.createPeerRun _ _ _ => true
  | Event.delPeerRun _ _ _ => true
  | Event.selfClose _ _ => true
  | Event.nextClose _ _ => true
  | _ => false

/-- Is this event a local undo or setup action of the element itself
(anything other than the forward delegation of Close)? -/
def isLocalAction : Event → Bool
  | Event.initFuncRun _ => true
  | Event.upRun _ _ => true
  | Event.createPeerRun _ _ _ => true
  | Event.delPeerRun _ _ _ => true
  | Event.selfClose _ _ => true
  | _ => false

/-- The spec-claim C2 predicate on a trace: no operation that could fail
occurs before the postponed-context capture (in particular, if no capture
occurs at all, no failable operation may occur). -/
def captureBeforeFailable (tr : List Event) : Bool :=
  (tr.takeWhile (fun ev => !isCapture ev)).all (fun ev => !isFailableOp ev)

namespace upClient

/-- The per-instance data of an `upClient` that the modelled paths read:
`metadata.IsClient u`, fixed per element instance. -/
structure Instance where
  isClient : Bool
deriving DecidableEq

/-- Oracle outcomes of the external calls one `upClient.Request`/`Close`
can make.  `none` for an error field means the Go error was nil. -/
structure Env where
  initFuncRes : Option Err
  nextReqConn : Option Conn
  nextReqErr : Option Err
  upRes : Option Err
  nextCloseVal : Option Unit
  nextCloseErr : Option Err
deriving DecidableEq

/-- `upClient.init`: double-checked latch.  Returns (error, new latch value,
trace).  The initialization action runs only when the latch is unset; the
latch is stored only when the action succeeds. -/
def init (inited : Bool) (initFuncRes : Option Err) (ctx : Ctx) :
    Option Err × Bool × List Event :=
  if inited then (none, inited, [])
  else if inited then (none, inited, [])
  else
    match initFuncRes with
    | none => (none, true, [Event.initFuncRun ctx])
    | some e => (some e, inited, [Event.initFuncRun ctx])

/-- `upClient.Close`: delegates to `next.Client(ctx).Close(ctx, conn)`.
Returns ((value, error) pair of the continuation, latch value, trace). -/
def Close (inited : Bool) (env : Env) (ctx : Ctx) (conn : Option Conn) :
    (Option Unit × Option Err) × Bool × List Event :=
  ((env.nextCloseVal, env.nextCloseErr), inited, [Event.nextClose ctx conn])

/-- `upClient.Request`.  Returns ((conn, error) pair, latch value, trace). -/
def Request (u : Instance) (inited : Bool) (env : Env) (ctx : Ctx) :
    (Option Conn × Option Err) × Bool × List Event :=
  match init inited env.initFuncRes ctx with
  | (some e, inited1, tr0) => ((none, some e), inited1, tr0)
  | (none, inited1, tr0) =>
    let postponeCtx := postponedOf ctx
    let tr1 := tr0 ++ [Event.captureValues ctx, Event.nextRequest ctx]
    match env.nextReqErr with
    | some e => ((none, some e), inited1, tr1)
    | none =>
      let conn := env.nextReqConn
      let tr2 := tr1 ++ [Event.upRun ctx u.isClient]
      match env.upRes with
      | none => ((conn, none), inited1, tr2)
      | some e =>
        let c := Close inited1 env postponeCtx conn
        let tr3 := tr2 ++ [Event.selfClose postponeCtx conn] ++ c.2.2
          ++ [Event.cancelClose]
        match c.1.2 with
        | none => ((none, some e), c.2.1, tr3)
        | some closeErr =>
          ((none, some (Err.wrapClose e closeErr)), c.2.1, tr3)

/-- A sequence of `init` calls on one instance, threading the latch; the
i-th oracle entry is the outcome the initialization action would have on
the i-th call.  Returns the per-call (returned error, action ran?) list and
the final latch value. -/
def initSeq : Bool → List (Option Err) → List (Option Err × Bool) × Bool
  | inited, [] => ([], inited)
  | inited, r :: rs =>
    match init inited r ⟨0, false⟩ with
    | (e, inited1, tr) =>
      let rest := initSeq inited1 rs
      ((e, !tr.isEmpty) :: rest.1, rest.2)

end upClient

namespace wireguardPeerServer

/-- The per-instance data of a `wireguardPeerServer` that the modelled paths
read: `metadata.IsClient w`, fixed per element instance. -/
structure Instance where
  isClient : Bool
deriving DecidableEq

/-- Oracle outcomes of the external calls one `wireguardPeerServer`
`Request`/`Close` can make. -/
structure Env where
  nextReqConn : Option Conn
  nextReqErr : Option Err
  createPeerRes : Option Err
  delPeerRes : Option Err
  nextCloseVal : Option Unit
  nextCloseErr : Option Err
deriving DecidableEq

/-- `wireguardPeerServer.Close`: runs `delPeer` discarding its error
(`_ = delPeer(...)`), then delegates to `next.Server(ctx).Close`. -/
def Close (w : Instance) (env : Env) (ctx : Ctx) (conn : Option Conn) :
    (Option Unit × Option Err) × List Event :=
  ((env.nextCloseVal, env.nextCloseErr),
   [Event.delPeerRun ctx conn w.isClient, Event.nextClose ctx conn])

/-- `wireguardPeerServer.Request`. -/
def Request (w : Instance) (env : Env) (ctx : Ctx) :
    (Option Conn × Option Err) × List Event :=
  let postponeCtx := postponedOf ctx
  let tr1 := [Event.captureValues ctx, Event.nextRequest ctx]
  match env.nextReqErr with
  | some e => ((none, some e), tr1)
  | none =>
    let conn := env.nextReqConn
    let tr2 := tr1 ++ [Event.createPeerRun ctx conn w.isClient]
    match env.createPeerRes with
    | none => ((conn, none), tr2)
    | some e =>
      let c := Close w env postponeCtx conn
      let tr3 := tr2 ++ [Event.selfClose postponeCtx conn] ++ c.2
        ++ [Event.cancelClose]
      match c.1.2 with
      | none => ((none, some e), tr3)
      | some closeErr =>
        ((none, some (Err.wrapClose e closeErr)), tr3)

end wireguardPeerServer

/-! Helper lemmas characterizing the rollback path (continuation succeeded,
the element's own setup action failed). -/

lemma up_rollback_eq (u : upClient.Instance) (inited : Bool) (env : upClient.Env)
    (ctx : Ctx) (e : Err)
    (hinit : inited = true ∨ env.initFuncRes = none)
    (hnext : env.nextReqErr = none) (hup : env.upRes = some e) :
    upClient.Request u inited env ctx =
      ((none,
        some (match env.nextCloseErr with
          | none => e
          | some ce => Err.wrapClose e ce)), true,
       (if inited then [] else [Event.initFuncRun ctx]) ++
       [Event.captureValues ctx, Event.nextRequest ctx,
        Event.upRun ctx u.isClient,
        Event.selfClose (postponedOf ctx) env.nextReqConn,
        Event.nextClose (postponedOf ctx) env.nextReqConn,
        Event.cancelClose]) := by
  cases inited with
  | false =>
    have hi : env.initFuncRes = none := by
      rcases hinit with h | h
      · exact absurd h (by simp)
      · exact h
    cases hce : env.nextCloseErr <;>
      simp [upClient.Request, upClient.init, upClient.Close, hi, hnext, hup, hce]
  | true =>
    cases hce : env.nextCloseErr <;>
      simp [upClient.Request, upClient.init, upClient.Close, hnext, hup, hce]

lemma wg_rollback_eq (w : wireguardPeerServer.Instance)
    (wenv : wireguardPeerServer.Env) (wctx : Ctx) (e : Err)
    (hnext : wenv.nextReqErr = none) (hcp : wenv.createPeerRes = some e) :
    wireguardPeerServer.Request w wenv wctx =
      ((none,
        some (match wenv.nextCloseErr with
          | none => e
          | some ce => Err.wrapClose e ce)),
       [Event.captureValues wctx, Event.nextRequest wctx,
        Event.createPeerRun wctx wenv.nextReqConn w.isClient,
        Event.selfClose (postponedOf wctx) wenv.nextReqConn,
        Event.delPeerRun (postponedOf wctx) wenv.nextReqConn w.isClient,
        Event.nextClose (postponedOf wctx) wenv.nextReqConn,
        Event.cancelClose]) := by
  cases hce : wenv.nextCloseErr <;>
    simp [wireguardPeerServer.Request, wireguardPeerServer.Close, hnext, hcp, hce]

lemma initSeq_inited_eq (rs : List (Option Err)) :
    upClient.initSeq true rs = (rs.map fun _ => ((none : Option Err), false), true) := by
  induction rs with
  | nil => rfl
  | cons r rs ih => simp [upClient.initSeq, upClient.init, ih]

/-- Claim C1: when the continuation succeeds but the element's own setup
action (`up` / `createPeer`) fails with error `e`, the element invokes its
own Close using the postponed context (whose cancellation flag is clear,
never the live context) on the connection returned by the continuation, and
returns a nil Connection with an error; if that Close also fails with `ce`,
the returned error is `Err.wrapClose e ce` — `e` kept as primary cause, `ce`
as contextual addendum, neither replacing the other. -/
theorem C1_rollback_uses_postponed_context (u : upClient.Instance) (inited : Bool)
    (env : upClient.Env) (ctx : Ctx) (e : Err)
    (w : wireguardPeerServer.Instance) (wenv : wireguardPeerServer.Env)
    (wctx : Ctx) (we : Err)
    (hinit : inited = true ∨ env.initFuncRes = none)
    (hnext : env.nextReqErr = none) (hup : env.upRes = some e)
    (hwnext : wenv.nextReqErr = none) (hwcp : wenv.createPeerRes = some we) :
    ((upClient.Request u inited env ctx).1.1 = none ∧
      (env.nextCloseErr = none → (upClient.Request u inited env ctx).1.2 = some e) ∧
      (∀ ce, env.nextCloseErr = some ce →
        (upClient.Request u inited env ctx).1.2 = some (Err.wrapClose e ce)) ∧
      Event.selfClose (postponedOf ctx) env.nextReqConn ∈
        (upClient.Request u inited env ctx).2.2 ∧
      (∀ c cn, Event.selfClose c cn ∈ (upClient.Request u inited env ctx).2.2 →
        c = postponedOf ctx ∧ c.cancelled = false)) ∧
    ((wireguardPeerServer.Request w wenv wctx).1.1 = none ∧
      (wenv.nextCloseErr = none →
        (wireguardPeerServer.Request w wenv wctx).1.2 = some we) ∧
      (∀ ce, wenv.nextCloseErr = some ce →
        (wireguardPeerServer.Request w wenv wctx).1.2 = some (Err.wrapClose we ce)) ∧
      Event.selfClose (postponedOf wctx) wenv.nextReqConn ∈
        (wireguardPeerServer.Request w wenv wctx).2 ∧
      (∀ c cn, Event.selfClose c cn ∈ (wireguardPeerServer.Request w wenv wctx).2 →
        c = postponedOf wctx ∧ c.cancelled = false)) := by
  rw [up_rollback_eq u inited env ctx e hinit hnext hup,
    wg_rollback_eq w wenv wctx we hwnext hwcp]
  refine ⟨⟨rfl, ?_, ?_, ?_, ?_⟩, ⟨rfl, ?_, ?_, ?_, ?_⟩⟩
  · intro h; simp [h]
  · intro ce h; simp [h]
  · cases inited <;> simp
  · intro c cn h
    cases inited <;> simp at h <;>
      exact ⟨h.1, by rw [h.1]; rfl⟩
  · intro h; simp [h]
  · intro ce h; simp [h]
  · simp
  · intro c cn h
    simp at h
    exact ⟨h.1, by rw [h.1]; rfl⟩

/-- Claim C1 witness: concrete rollback runs of both elements in which the
compensating Close also fails, showing the combined error. -/
theorem C1_witness :
    (upClient.Request ⟨true⟩ true
        ⟨none, some 1, none, some (Err.tag 1), some (), some (Err.tag 2)⟩
        ⟨5, true⟩).1.2 = some (Err.wrapClose (Err.tag 1) (Err.tag 2)) ∧
    (wireguardPeerServer.Request ⟨false⟩
        ⟨some 2, none, some (Err.tag 3), none, some (), some (Err.tag 4)⟩
        ⟨7, true⟩).1.2 = some (Err.wrapClose (Err.tag 3) (Err.tag 4)) := by
  have h := C1_rollback_uses_postponed_context ⟨true⟩ true
      ⟨none, some 1, none, some (Err.tag 1), some (), some (Err.tag 2)⟩ ⟨5, true⟩ (Err.tag 1)
      ⟨false⟩ ⟨some 2, none, some (Err.tag 3), none, some (), some (Err.tag 4)⟩
      ⟨7, true⟩ (Err.tag 3)
      (Or.inl rfl) rfl rfl rfl rfl
  exact ⟨h.1.2.2.1 (Err.tag 2) rfl, h.2.2.2.1 (Err.tag 4) rfl⟩

/-- Claim C2 counterexample: in `upClient.Request` the failable guarded
initialization step executes before the postponed-context capture, so the
claim "the snapshot is captured before any operation of the Establish
attempt that could fail" is false at this concrete input. -/
theorem C2_counterexample :
    captureBeforeFailable
      (upClient.Request ⟨true⟩ false
        ⟨none, some 1, none, none, some (), none⟩ ⟨0, false⟩).2.2 = false := by
  decide

/-- Claim C2 (amended): the postponed-context capture precedes the
continuation call and the element's own setup action — in
`wireguardPeerServer.Request` it is the very first operation, while in
`upClient.Request` only the guarded initialization step may precede it. -/
theorem C2_amended_capture_precedes_continuation :
    (∀ (w : wireguardPeerServer.Instance) (env : wireguardPeerServer.Env) (ctx : Ctx),
      (wireguardPeerServer.Request w env ctx).2.head? =
        some (Event.captureValues ctx)) ∧
    (∀ (u : upClient.Instance) (inited : Bool) (env : upClient.Env) (ctx : Ctx),
      (((upClient.Request u inited env ctx).2.2.takeWhile fun ev => !isCapture ev).all
        fun ev => isInitFuncRun ev) = true) := by
  constructor
  · intro w env ctx
    cases hn : env.nextReqErr <;> cases hc : env.createPeerRes <;>
      cases hce : env.nextCloseErr <;>
      simp [wireguardPeerServer.Request, wireguardPeerServer.Close, hn, hc, hce]
  · intro u inited env ctx
    cases inited <;> cases hi : env.initFuncRes <;> cases hn : env.nextReqErr <;>
      cases hu : env.upRes <;> cases hce : env.nextCloseErr <;>
      simp [upClient.Request, upClient.init, upClient.Close, hi, hn, hu, hce,
        isCapture, isInitFuncRun]

/-- Claim C3: across any sequence of `init` calls on one `upClient`
instance, once the initialization action succeeds the latch is set and never
reset — every later call returns nil without running the action again; when
the action fails the latch stays unset, the error is returned, and the
action runs again on the next call (failure is not cached). -/
theorem C3_guarded_init_latch :
    (∀ rs : List (Option Err),
      upClient.initSeq true rs =
        (rs.map fun _ => ((none : Option Err), false), true)) ∧
    (∀ (e : Err) (rs : List (Option Err)),
      upClient.initSeq false (some e :: rs) =
        ((some e, true) :: (upClient.initSeq false rs).1,
         (upClient.initSeq false rs).2)) ∧
    (∀ rs : List (Option Err),
      upClient.initSeq false (none :: rs) =
        ((none, true) :: rs.map (fun _ => ((none : Option Err), false)), true)) ∧
    (∀ (r : Option Err) (c : Ctx),
      (upClient.init false r c).2.2.isEmpty = false) := by
  refine ⟨initSeq_inited_eq, ?_, ?_, ?_⟩
  · intro e rs
    simp [upClient.initSeq, upClient.init]
  · intro rs
    simp [upClient.initSeq, upClient.init, initSeq_inited_eq]
  · intro r c
    cases r <;> simp [upClient.init]

/-- Claim C4: every `Request` returns either a Connection with nil error or
nil with a non-nil error (given the continuation does the same), and on the
path where the element's own setup action failed after the continuation
succeeded, the compensating self-Close is part of the execution trace. -/
theorem C4_request_all_or_nothing (u : upClient.Instance) (inited : Bool)
    (env : upClient.Env) (ctx : Ctx)
    (w : wireguardPeerServer.Instance) (wenv : wireguardPeerServer.Env) (wctx : Ctx)
    (hval : env.nextReqErr = none → env.nextReqConn.isSome)
    (hwval : wenv.nextReqErr = none → wenv.nextReqConn.isSome) :
    (((upClient.Request u inited env ctx).1.1.isSome ∧
        (upClient.Request u inited env ctx).1.2 = none) ∨
      ((upClient.Request u inited env ctx).1.1 = none ∧
        (upClient.Request u inited env ctx).1.2.isSome)) ∧
    (((wireguardPeerServer.Request w wenv wctx).1.1.isSome ∧
        (wireguardPeerServer.Request w wenv wctx).1.2 = none) ∨
      ((wireguardPeerServer.Request w wenv wctx).1.1 = none ∧
        (wireguardPeerServer.Request w wenv wctx).1.2.isSome)) ∧
    ((inited = true ∨ env.initFuncRes = none) → env.nextReqErr = none →
      ∀ e, env.upRes = some e →
        Event.selfClose (postponedOf ctx) env.nextReqConn ∈
          (upClient.Request u inited env ctx).2.2) ∧
    (wenv.nextReqErr = none → ∀ e, wenv.createPeerRes = some e →
      Event.selfClose (postponedOf wctx) wenv.nextReqConn ∈
        (wireguardPeerServer.Request w wenv wctx).2) := by
  refine ⟨?_, ?_, ?_, ?_⟩
  · cases inited <;> cases hi : env.initFuncRes <;> cases hn : env.nextReqErr <;>
      cases hu : env.upRes <;> cases hce : env.nextCloseErr <;>
      simp_all [upClient.Request, upClient.init, upClient.Close]
  · cases hn : wenv.nextReqErr <;> cases hc : wenv.createPeerRes <;>
      cases hce : wenv.nextCloseErr <;>
      simp_all [wireguardPeerServer.Request, wireguardPeerServer.Close]
  · intro h1 h2 e h3
    rw [up_rollback_eq u inited env ctx e h1 h2 h3]
    cases inited <;> simp
  · intro h1 e h2
    rw [wg_rollback_eq w wenv wctx e h1 h2]
    simp

/-- Claim C4 witness: concrete success runs of both elements, returning a
Connection with nil error. -/
theorem C4_witness :
    ((upClient.Request ⟨true⟩ true ⟨none, some 1, none, none, some (), none⟩
        ⟨0, false⟩).1.1.isSome ∧
      (upClient.Request ⟨true⟩ true ⟨none, some 1, none, none, some (), none⟩
        ⟨0, false⟩).1.2 = none) ∨
    ((upClient.Request ⟨true⟩ true ⟨none, some 1, none, none, some (), none⟩
        ⟨0, false⟩).1.1 = none ∧
      (upClient.Request ⟨true⟩ true ⟨none, some 1, none, none, some (), none⟩
        ⟨0, false⟩).1.2.isSome) :=
  (C4_request_all_or_nothing ⟨true⟩ true ⟨none, some 1, none, none, some (), none⟩
    ⟨0, false⟩ ⟨false⟩ ⟨some 2, none, none, none, some (), none⟩ ⟨0, false⟩
    (fun _ => rfl) (fun _ => rfl)).1

/-- Claim C5: when the continuation's Request fails, each element returns
nil plus that exact error unchanged, and no setup action, self-Close or
delegated Close of its own appears in the trace. -/
theorem C5_continuation_error_propagated (u : upClient.Instance) (inited : Bool)
    (env : upClient.Env) (ctx : Ctx) (e : Err)
    (w : wireguardPeerServer.Instance) (wenv : wireguardPeerServer.Env)
    (wctx : Ctx) (we : Err)
    (hinit : inited = true ∨ env.initFuncRes = none)
    (hnext : env.nextReqErr = some e)
    (hwnext : wenv.nextReqErr = some we) :
    (upClient.Request u inited env ctx).1 = (none, some e) ∧
    ((upClient.Request u inited env ctx).2.2.all fun ev => !isOwnSetupOrClose ev)
      = true ∧
    (wireguardPeerServer.Request w wenv wctx).1 = (none, some we) ∧
    (wireguardPeerServer.Request w wenv wctx).2 =
      [Event.captureValues wctx, Event.nextRequest wctx] := by
  have hw : wireguardPeerServer.Request w wenv wctx =
      ((none, some we), [Event.captureValues wctx, Event.nextRequest wctx]) := by
    simp [wireguardPeerServer.Request, hwnext]
  cases inited with
  | false =>
    have hi : env.initFuncRes = none := by
      rcases hinit with h | h
      · exact absurd h (by simp)
      · exact h
    refine ⟨?_, ?_, by rw [hw], by rw [hw]⟩ <;>
      simp [upClient.Request, upClient.init, hi, hnext, isOwnSetupOrClose]
  | true =>
    refine ⟨?_, ?_, by rw [hw], by rw [hw]⟩ <;>
      simp [upClient.Request, upClient.init, hnext, isOwnSetupOrClose]

/-- Claim C5 witness: concrete continuation-failure runs of both elements. -/
theorem C5_witness :
    (upClient.Request ⟨true⟩ true ⟨none, none, some (Err.tag 9), none, none, none⟩
      ⟨0, false⟩).1 = (none, some (Err.tag 9)) ∧
    (wireguardPeerServer.Request ⟨true⟩
      ⟨none, some (Err.tag 8), none, none, none, none⟩ ⟨0, false⟩).1
      = (none, some (Err.tag 8)) := by
  have h := C5_continuation_error_propagated ⟨true⟩ true
      ⟨none, none, some (Err.tag 9), none, none, none⟩ ⟨0, false⟩ (Err.tag 9)
      ⟨true⟩ ⟨none, some (Err.tag 8), none, none, none, none⟩ ⟨0, false⟩ (Err.tag 8)
      (Or.inl rfl) rfl rfl
  exact ⟨h.1, h.2.2.1⟩

/-- Claim C6: when guarded initialization fails, `upClient.Request` returns
nil and that error immediately — its whole trace is the single
initialization attempt, so the continuation is never invoked. -/
theorem C6_init_error_fail_fast (u : upClient.Instance) (env : upClient.Env)
    (ctx : Ctx) (e : Err)
    (h : env.initFuncRes = some e) :
    upClient.Request u false env ctx =
      ((none, some e), false, [Event.initFuncRun ctx]) ∧
    ∀ c, Event.nextRequest c ∉ (upClient.Request u false env ctx).2.2 := by
  have hreq : upClient.Request u false env ctx =
      ((none, some e), false, [Event.initFuncRun ctx]) := by
    simp [upClient.Request, upClient.init, h]
  exact ⟨hreq, fun c => by rw [hreq]; simp⟩

/-- Claim C6 witness: a concrete failed-initialization run. -/
theorem C6_witness :
    upClient.Request ⟨true⟩ false ⟨some (Err.tag 5), none, none, none, none, none⟩
      ⟨0, false⟩ = ((none, some (Err.tag 5)), false, [Event.initFuncRun ⟨0, false⟩]) :=
  (C6_init_error_fail_fast ⟨true⟩ ⟨some (Err.tag 5), none, none, none, none, none⟩
    ⟨0, false⟩ (Err.tag 5) rfl).1

/-- Claim C7: on every Close, the continuation's Close is always invoked
regardless of the local undo outcome (`delPeer` result does not change the
trace), and the local undo precedes the forward delegation; `upClient.Close`
likewise always delegates. -/
theorem C7_teardown_always_delegates :
    ∀ (w : wireguardPeerServer.Instance) (env : wireguardPeerServer.Env)
      (ctx : Ctx) (conn : Option Conn) (e : Err)
      (inited : Bool) (uenv : upClient.Env),
      (wireguardPeerServer.Close w env ctx conn).2 =
        [Event.delPeerRun ctx conn w.isClient, Event.nextClose ctx conn] ∧
      (wireguardPeerServer.Close w { env with delPeerRes := some e } ctx conn).2 =
        (wireguardPeerServer.Close w env ctx conn).2 ∧
      Event.nextClose ctx conn ∈ (wireguardPeerServer.Close w env ctx conn).2 ∧
      Event.nextClose ctx conn ∈ (upClient.Close inited uenv ctx conn).2.2 := by
  intro w env ctx conn e inited uenv
  exact ⟨rfl, rfl, by simp [wireguardPeerServer.Close], by simp [upClient.Close]⟩

/-- Claim C8: for a fixed `wireguardPeerServer` instance, every
directionality value passed to `createPeer` during any Request and every
directionality value passed to `delPeer` during any Close is the instance's
single role lookup `isClient`, so the two always agree. -/
theorem C8_role_lookup_consistent (w : wireguardPeerServer.Instance)
    (envR envC : wireguardPeerServer.Env) (ctxR ctxC : Ctx) (connC : Option Conn) :
    (∀ c cn b, Event.createPeerRun c cn b ∈
        (wireguardPeerServer.Request w envR ctxR).2 → b = w.isClient) ∧
    (∀ c cn b, Event.delPeerRun c cn b ∈
        (wireguardPeerServer.Close w envC ctxC connC).2 → b = w.isClient) := by
  constructor
  · intro c cn b h
    cases hn : envR.nextReqErr <;> cases hc : envR.createPeerRes <;>
      cases hce : envR.nextCloseErr <;>
      simp_all [wireguardPeerServer.Request, wireguardPeerServer.Close, hn, hc, hce]
  · intro c cn b h
    simp_all [wireguardPeerServer.Close]

/-- Claim C8 witness: a concrete Request of a client-role instance passes
`true` to `createPeer`, and that value is the instance's role lookup. -/
theorem C8_witness :
    (Event.createPeerRun ⟨0, false⟩ (some 1) true ∈
      (wireguardPeerServer.Request ⟨true⟩ ⟨some 1, none, none, none, none, none⟩
        ⟨0, false⟩).2) ∧
    true = (⟨true⟩ : wireguardPeerServer.Instance).isClient := by
  refine ⟨by decide, ?_⟩
  exact (C8_role_lookup_consistent ⟨true⟩ ⟨some 1, none, none, none, none, none⟩
    ⟨some 1, none, none, none, none, none⟩ ⟨0, false⟩ ⟨0, false⟩ (some 1)).1
    ⟨0, false⟩ (some 1) true (by decide)

/-- Claim C9: `upClient.Close` performs no local undo: it returns exactly
the continuation's Close result, leaves the `inited` latch unchanged, and
its trace is the single forward delegation with no local action. -/
theorem C9_upClient_close_frame :
    ∀ (inited : Bool) (env : upClient.Env) (ctx : Ctx) (conn : Option Conn),
      (upClient.Close inited env ctx conn).1 = (env.nextCloseVal, env.nextCloseErr) ∧
      (upClient.Close inited env ctx conn).2.1 = inited ∧
      (upClient.Close inited env ctx conn).2.2 = [Event.nextClose ctx conn] ∧
      ((upClient.Close inited env ctx conn).2.2.all fun ev => !isLocalAction ev)
        = true := by
  intro inited env ctx conn
  exact ⟨rfl, rfl, rfl, by simp [upClient.Close, isLocalAction]⟩

/-- Claim C10: `wireguardPeerServer.Close` returns exactly the
continuation's Close pair, and the result is independent of the `delPeer`
outcome — the discarded `delPeer` error never appears in it. -/
theorem C10_wg_close_result_from_continuation :
    ∀ (w : wireguardPeerServer.Instance) (env : wireguardPeerServer.Env)
      (ctx : Ctx) (conn : Option Conn) (r : Option Err),
      (wireguardPeerServer.Close w env ctx conn).1 =
        (env.nextCloseVal, env.nextCloseErr) ∧
      (wireguardPeerServer.Close w { env with delPeerRes := r } ctx conn).1 =
        (wireguardPeerServer.Close w env ctx conn).1 := by
  intro w env ctx conn r
  exact ⟨rfl, rfl⟩

end SdkVppUp
